import Mathlib

/-!
Shallow embedding of the WMI wrapper classes of `nv2_wmi.h` (repository
g40/wmipp).  The wrapper makes sequential COM calls; each call is modelled
by an oracle field supplying the HRESULT and the data the call writes into
its out parameters.  Every wrapper operation is embedded as a function from
its arguments and its oracle to a pair: the list of COM calls it performed
(in order) and an outcome (normal return, thrown exception, std::terminate,
or undefined behaviour from a null-pointer dereference).
-/

namespace Wmipp

/-- HRESULT values, as the signed 32-bit integers the C code compares.
Failure codes (high bit set) are negative, so that `FAILED(hr)` is `hr < 0`
and `SUCCEEDED(hr)` is `0 ≤ hr`, exactly as in winerror.h. -/
abbrev HRESULT := Int

def S_OK : HRESULT := 0

/-- E_POINTER = 0x80004003 as a signed 32-bit integer. -/
def E_POINTER : HRESULT := -2147467261

/-- WBEM_E_ACCESS_DENIED = 0x80041003 as a signed 32-bit integer. -/
def WBEM_E_ACCESS_DENIED : HRESULT := -2147217405

/-- WBEM_E_FAILED = 0x80041001 as a signed 32-bit integer. -/
def WBEM_E_FAILED : HRESULT := -2147217407

/-- RPC_E_TOO_LATE = 0x80010119 as a signed 32-bit integer (returned by
CoInitializeSecurity when the process security settings were already in place). -/
def RPC_E_TOO_LATE : HRESULT := -2147417831

-- VARTYPE tags from wtypes.h.
def VT_EMPTY : Nat := 0
def VT_NULL : Nat := 1
def VT_BSTR : Nat := 8
def VT_BOOL : Nat := 11
def VT_UNKNOWN : Nat := 13
def VT_INT : Nat := 22
def VT_LPWSTR : Nat := 31

-- Flags from wbemcli.h.
def WBEM_FLAG_ALWAYS : Nat := 0
def WBEM_FLAG_NONSYSTEM_ONLY : Nat := 0x40

/-- Flags passed by the wrapper to IWbemClassObject::GetNames:
`WBEM_FLAG_ALWAYS | WBEM_FLAG_NONSYSTEM_ONLY`. -/
def enumNamesFlags : Nat := WBEM_FLAG_ALWAYS ||| WBEM_FLAG_NONSYSTEM_ONLY

/-- Model of CComVariant.  `vt` is the VARTYPE tag.  `u16` is the raw
16-bit payload of the union for VT_BOOL values: `boolVal` reads all 16
bits, while `bVal` aliases its low byte on a little-endian machine.
`bstrVal` is the string payload (also aliasing `pwszVal` for VT_LPWSTR).
`changeTypeBstr` / `changeTypeInt` are the payloads the variant holds
after `ChangeType(VT_BSTR)` / `ChangeType(VT_INT)`: the coercion itself is
performed by the platform, so its result is part of the oracle data. -/
structure CComVariant where
  vt : Nat
  u16 : Nat := 0
  bstrVal : String := ""
  intVal : Int := 0
  changeTypeBstr : String := ""
  changeTypeInt : Int := 0
deriving DecidableEq, Repr

/-- The empty variant a default-constructed CComVariant holds. -/
def emptyVariant : CComVariant := { vt := VT_EMPTY }

/-- The `bVal` field of the union: the low byte of the 16-bit payload. -/
def CComVariant.bVal (v : CComVariant) : Nat := v.u16 % 256

/-- One completed COM call, as recorded in an operation trace. -/
inductive Event where
  | eGetNames (saId : Nat) (flags : Nat) (hr : HRESULT)
  | eGetLBound (saId : Nat) (hr : HRESULT)
  | eGetUBound (saId : Nat) (hr : HRESULT)
  | eGetElement (saId : Nat) (idx : Int) (hr : HRESULT)
  | eSafeArrayDestroy (saId : Nat) (hr : HRESULT)
  | eCoInitSecurity (hr : HRESULT)
  | eCoCreateWbemLocator (hr : HRESULT)
  | eConnectServer (path : String) (hr : HRESULT)
  | eCoSetProxyBlanket (hr : HRESULT)
  | eGet (prop : String) (hr : HRESULT)
  | eGetObject (name : String) (hr : HRESULT)
  | eBeginMethodEnum (hr : HRESULT)
  | eNextMethod (hr : HRESULT)
  | eEndMethodEnum (hr : HRESULT)
  | eGetMethod (name : String) (hr : HRESULT)
  | eSpawnInstance (hr : HRESULT)
  | ePut (name : String) (vt : Nat) (hr : HRESULT)
  | eExecMethodCall (relPath : String) (method : String) (flags : Nat) (hr : HRESULT)
  | eBeginEnum (flags : Nat) (hr : HRESULT)
  | eNextEnum (hr : HRESULT)
  | eEndEnum (hr : HRESULT)
  | eExecQuery (lang : String) (query : String) (hr : HRESULT)
  | eCreateInstanceEnum (name : String) (hr : HRESULT)
deriving DecidableEq, Repr

/-- Outcome of running a wrapper operation: normal return, a thrown C++
exception carrying the translated HRESULT, std::terminate (a destructor
throwing during unwind), or undefined behaviour (null dereference). -/
inductive Outcome (α : Type) where
  | ok (a : α)
  | exn (hr : HRESULT)
  | term
  | crash
deriving DecidableEq, Repr

/-- Sequencing of traced computations: on a non-ok outcome the remainder
of the body does not run (C++ exception propagation). -/
def andThen {α β : Type} (x : List Event × Outcome α)
    (f : α → List Event × Outcome β) : List Event × Outcome β :=
  match x with
  | (tr, .ok a) => (tr ++ (f a).1, (f a).2)
  | (tr, .exn e) => (tr, .exn e)
  | (tr, .term) => (tr, .term)
  | (tr, .crash) => (tr, .crash)

/-- Oracle for one execution of the body of `EnumNames`: the responses of
GetNames (HRESULT plus the identity `saId` of the SAFEARRAY it writes),
SafeArrayGetLBound / SafeArrayGetUBound (HRESULT plus the bound), each
SafeArrayGetElement (HRESULT plus the BSTR it writes, indexed by the array
index), and the SafeArrayDestroy issued by the SAHandle destructor. -/
structure NamesOracle where
  hrGetNames : HRESULT
  saId : Nat
  hrLBound : HRESULT
  lLower : Int
  hrUBound : HRESULT
  lUpper : Int
  getElem : Int → HRESULT × String
  hrDestroy : HRESULT

/-- The `for (long i = lLower; i <= lUpper; i++)` element loop of
`EnumNames`, unrolled over the (lUpper + 1 - lLower) iterations; `lo` is
the current index.  Each SafeArrayGetElement is checked with throw_if. -/
def enumElems (o : NamesOracle) (lo : Int) : Nat → List Event × Outcome (List String)
  | 0 => ([], .ok [])
  | n + 1 =>
    let hr := (o.getElem lo).1
    let ev := Event.eGetElement o.saId lo hr
    if hr ≠ S_OK then ([ev], .exn hr)
    else
      match enumElems o (lo + 1) n with
      | (tr, .ok rest) => (ev :: tr, .ok ((o.getElem lo).2 :: rest))
      | (tr, r) => (ev :: tr, r)

/-- Body of `EnumNames` after GetNames succeeded and the SAHandle was
constructed: SafeArrayGetLBound, SafeArrayGetUBound (each checked with
throw_if), then the element loop. -/
def enumNamesBody (o : NamesOracle) : List Event × Outcome (List String) :=
  let evL := Event.eGetLBound o.saId o.hrLBound
  if o.hrLBound ≠ S_OK then ([evL], .exn o.hrLBound)
  else
    let evU := Event.eGetUBound o.saId o.hrUBound
    if o.hrUBound ≠ S_OK then ([evL, evU], .exn o.hrUBound)
    else
      let (tr, r) := enumElems o o.lLower (o.lUpper + 1 - o.lLower).toNat
      (evL :: evU :: tr, r)

/-- Destructor of `SAHandle`, run when the handle goes out of scope on any
path (normal return or unwind): it calls SafeArrayDestroy, then throw_if
on the destroy HRESULT.  A destructor throw on the normal path propagates
as the exception; a destructor throw during unwind is std::terminate. -/
def runSAHandle {α : Type} (saId : Nat) (hrDestroy : HRESULT)
    (x : List Event × Outcome α) : List Event × Outcome α :=
  let ev := Event.eSafeArrayDestroy saId hrDestroy
  (x.1 ++ [ev],
    if hrDestroy = S_OK then x.2
    else
      match x.2 with
      | .ok _ => .exn hrDestroy
      | .exn _ => .term
      | r => r)

/-- Embedding of `EnumNames(pClass)`: GetNames with WBEM_FLAG_ALWAYS |
WBEM_FLAG_NONSYSTEM_ONLY (checked with throw_if), then the SAHandle-guarded
body; the handle destructor runs on every path out of the body. -/
def EnumNames (o : NamesOracle) : List Event × Outcome (List String) :=
  let evN := Event.eGetNames o.saId enumNamesFlags o.hrGetNames
  if o.hrGetNames ≠ S_OK then ([evN], .exn o.hrGetNames)
  else
    let (tr, r) := runSAHandle o.saId o.hrDestroy (enumNamesBody o)
    (evN :: tr, r)

/-- A WMI method definition as collected by `Object::GetMethods`. -/
structure MethodDef where
  name : String
  ipParams : List String
  opParams : List String
deriving DecidableEq, Repr

/-- Contents of a `std::map<std::wstring, CComVariant>` (`param_map`),
modelled extensionally as a mapping from names to variants. -/
def param_map : Type := String → Option CComVariant

namespace Object

/-- Oracle for `Object::GetProperties`: the object makes its own GetNames
call (whose lower/upper-bound and element fields are never consulted,
since the function only wraps the array in an SAHandle), then calls the
free function `EnumNames(m_pObj)`, which performs a second, independent
GetNames on the same object. -/
structure GetPropsOracle where
  outer : NamesOracle
  inner : NamesOracle

/-- Embedding of `Object::GetProperties`.  `objValid` is whether m_pObj is non-null:
the method calls `m_pObj->GetNames` without a null check, so an invalid
object is a null dereference.  On GetNames success the array is wrapped in
an SAHandle and the result is `EnumNames(m_pObj)`; the outer handle is
destroyed after `EnumNames` returns or throws. -/
def GetProperties (objValid : Bool) (po : GetPropsOracle) :
    List Event × Outcome (List String) :=
  if ¬ objValid then ([], .crash)
  else
    let evN := Event.eGetNames po.outer.saId enumNamesFlags po.outer.hrGetNames
    if po.outer.hrGetNames ≠ S_OK then ([evN], .exn po.outer.hrGetNames)
    else
      let (tr, r) := runSAHandle po.outer.saId po.outer.hrDestroy (EnumNames po.inner)
      (evN :: tr, r)

/-- Oracle for one `IWbemClassObject::Get` call: its HRESULT and the
variant it writes into the output argument. -/
structure GetOracle where
  hr : HRESULT
  val : CComVariant

/-- The type-switched conversion at the end of `Object::GetValue`:
VT_NULL yields "NULL"; VT_BOOL tests `bVal` (the low byte of the union);
any type other than VT_LPWSTR / VT_BSTR is coerced with
`ChangeType(VT_BSTR)` and its bstrVal returned; otherwise bstrVal is
returned as-is. -/
def valueToString (val : CComVariant) : String :=
  if val.vt = VT_NULL then "NULL"
  else if val.vt = VT_BOOL then (if val.bVal ≠ 0 then "true" else "false")
  else if ¬ (val.vt = VT_LPWSTR ∨ val.vt = VT_BSTR) then val.changeTypeBstr
  else val.bstrVal

/-- Embedding of `Object::GetValue(property)`: throw_if on a null m_pObj (E_POINTER),
`m_pObj->Get` checked with throw_if, then the type-switched conversion. -/
def GetValue (objValid : Bool) (property : String) (o : GetOracle) :
    List Event × Outcome String :=
  if ¬ objValid then ([], .exn E_POINTER)
  else
    let ev := Event.eGet property o.hr
    if o.hr ≠ S_OK then ([ev], .exn o.hr)
    else ([ev], .ok (valueToString o.val))

/-- Embedding of `Object::GetIValue(property)`: throw_if on a null m_pObj (E_POINTER),
`m_pObj->Get` checked with throw_if, then `ChangeType(VT_INT)` unless the
variant already is VT_INT, and `intVal` is returned. -/
def GetIValue (objValid : Bool) (property : String) (o : GetOracle) :
    List Event × Outcome Int :=
  if ¬ objValid then ([], .exn E_POINTER)
  else
    let ev := Event.eGet property o.hr
    if o.hr ≠ S_OK then ([ev], .exn o.hr)
    else ([ev], .ok (if o.val.vt ≠ VT_INT then o.val.changeTypeInt else o.val.intVal))

end Object

/-- Oracle for one `IWbemClassObject::NextMethod` call: HRESULT, the name
it writes (none models a null BSTR), and, when the in/out signature
pointers it writes are non-null, the `EnumNames` oracle for the
enumeration the wrapper then performs on that signature object. -/
structure NextMethodResp where
  hr : HRESULT
  name : Option String
  inSig : Option NamesOracle
  outSig : Option NamesOracle

/-- The `if (ppInSignature) def.ipParams = EnumNames(ppInSignature)`
guard of `Object::GetMethods`: a null signature pointer yields an empty
parameter list without any COM call. -/
def enumOptSig : Option NamesOracle → List Event × Outcome (List String)
  | none => ([], .ok [])
  | some o => EnumNames o

/-- The NextMethod loop of `Object::GetMethods`: breaks on FAILED(hr) or
on a null name, otherwise enumerates both signatures (a throw from
`EnumNames` propagates) and collects the MethodDef.  A well-formed
provider terminates the enumeration with WBEM_S_NO_MORE_DATA and a null
name; the end of the oracle list models that final response. -/
def getMethodsLoop : List NextMethodResp → List Event × Outcome (List MethodDef)
  | [] => ([], .ok [])
  | r :: rest =>
    let ev := Event.eNextMethod r.hr
    if r.hr < 0 then ([ev], .ok [])
    else
      match r.name with
      | none => ([ev], .ok [])
      | some nm =>
        let body :=
          andThen (enumOptSig r.inSig) (fun ip =>
            andThen (enumOptSig r.outSig) (fun op =>
              andThen (getMethodsLoop rest) (fun defs =>
                ([], .ok (MethodDef.mk nm ip op :: defs)))))
        (ev :: body.1, body.2)

namespace Object

/-- Oracle for `Object::GetMethods`: the `Get("__CLASS")` response used by
the internal `GetValue` call, the `IWbemServices::GetObject` HRESULT, the
BeginMethodEnumeration HRESULT, the NextMethod responses, and the
EndMethodEnumeration HRESULT (which the code assigns and ignores). -/
structure GetMethodsOracle where
  classVal : GetOracle
  hrGetObject : HRESULT
  hrBegin : HRESULT
  nexts : List NextMethodResp
  hrEnd : HRESULT

/-- Embedding of `Object::GetMethods`: `GetValue("__CLASS")` (which performs the
m_pObj null check), `m_pServices->GetObject` on the class name (no null
check on m_pServices, so an invalid services pointer is a null
dereference) checked with throw_if, then BeginMethodEnumeration; on
SUCCEEDED the NextMethod loop runs followed by EndMethodEnumeration, on
FAILED the method merely traces a debug message and returns the empty
list. -/
def GetMethods (objValid servicesValid : Bool) (o : GetMethodsOracle) :
    List Event × Outcome (List MethodDef) :=
  andThen (GetValue objValid "__CLASS" o.classVal) (fun className =>
    if ¬ servicesValid then ([], .crash)
    else
      let evGO := Event.eGetObject className o.hrGetObject
      if o.hrGetObject ≠ S_OK then ([evGO], .exn o.hrGetObject)
      else
        let evB := Event.eBeginMethodEnum o.hrBegin
        if o.hrBegin < 0 then ([evGO, evB], .ok [])
        else
          match getMethodsLoop o.nexts with
          | (tr, .ok defs) =>
            (evGO :: evB :: (tr ++ [Event.eEndMethodEnum o.hrEnd]), .ok defs)
          | (tr, r) => (evGO :: evB :: tr, r))

/-- Oracle for the out-parameter drain of `Object::ExecMethod`: the
`Get("ReturnValue")` response (HRESULT plus the variant left in `ret`),
the BeginEnumeration HRESULT, the Next responses (HRESULT, the name
written — none models a null BSTR — and the value variant), and the
EndEnumeration HRESULT.  All of these HRESULTs are ignored by the code. -/
structure OutParamsOracle where
  hrGetReturnValue : HRESULT
  returnValue : CComVariant
  hrBeginEnum : HRESULT
  nexts : List (HRESULT × Option String × CComVariant)
  hrEndEnum : HRESULT

/-- Oracle for `Object::ExecMethod`: responses of `Get("__CLASS")`,
`IWbemServices::GetObject`, `GetMethod` (HRESULT plus whether the
in-parameter class pointer it writes is non-null), `SpawnInstance`
(HRESULT plus whether the instance pointer is non-null), each `Put` by
position, `Get("__RELPATH")`, `IWbemServices::ExecMethod`, and, when the
out-parameter object written by ExecMethod is non-null, its drain. -/
structure ExecMethodOracle where
  classVal : GetOracle
  hrGetObject : HRESULT
  hrGetMethod : HRESULT
  inParamsClass : Bool
  hrSpawn : HRESULT
  spawnedOk : Bool
  putHr : Nat → HRESULT
  relPathVal : GetOracle
  hrExec : HRESULT
  outParams : Option OutParamsOracle

/-- The `for (auto& iparam : iparams)` loop of `Object::ExecMethod`: one
`Put(name, 0, &value, value.vt)` per pair, in list order; the HRESULTs
are ignored (the code only traces them in a debug message). -/
def putLoop (o : ExecMethodOracle) :
    List (String × CComVariant) → Nat → List Event
  | [], _ => []
  | (n, v) :: rest, idx => Event.ePut n v.vt (o.putHr idx) :: putLoop o rest (idx + 1)

/-- Embedding of `std::map::operator[]` followed by assignment: bind `k` to `v`,
leaving every other key unchanged. -/
def updateMap (m : param_map) (k : String) (v : CComVariant) : param_map :=
  fun x => if x = k then some v else m x

/-- The out-parameter Next loop of `Object::ExecMethod`: breaks on a null
name, skips the name "ReturnValue", and maps every other enumerated name
to its value in `oparams`.  The end of the oracle list models the
provider terminating the enumeration. -/
def outParamsLoop :
    List (HRESULT × Option String × CComVariant) → param_map →
    List Event × param_map
  | [], m => ([], m)
  | (hr, none, _) :: _, m => ([Event.eNextEnum hr], m)
  | (hr, some n, v) :: rest, m =>
    let m1 := if n = "ReturnValue" then m else updateMap m n v
    let (tr, mf) := outParamsLoop rest m1
    (Event.eNextEnum hr :: tr, mf)

/-- Embedding of `Object::ExecMethod(lpMethodName, iparams, oparams)`: E_POINTER
throw_if checks on m_pServices then m_pObj; `GetValue("__CLASS")`;
`GetObject` checked with throw_if; `GetMethod` (HRESULT unchecked) whose
written pointer is dereferenced by `SpawnInstance` — a null pointer is
undefined behaviour; `SpawnInstance` (HRESULT unchecked; a null instance
is dereferenced by the first `Put` when iparams is non-empty); the Put
loop; `GetValue("__RELPATH")`; the synchronous (lFlags = 0)
`IWbemServices::ExecMethod` (HRESULT unchecked); and, when the
out-parameter object is non-null, `Get("ReturnValue")` into the returned
variant followed by the WBEM_FLAG_NONSYSTEM_ONLY enumeration drained into
`oparams`.  When the out-parameter object is null the default-constructed
(empty) variant is returned and `oparams` is untouched. -/
def ExecMethod (objValid servicesValid : Bool) (methodName : String)
    (iparams : List (String × CComVariant)) (oparams : param_map)
    (o : ExecMethodOracle) : List Event × Outcome (CComVariant × param_map) :=
  if ¬ servicesValid then ([], .exn E_POINTER)
  else if ¬ objValid then ([], .exn E_POINTER)
  else
    andThen (GetValue objValid "__CLASS" o.classVal) (fun className =>
      let evGO := Event.eGetObject className o.hrGetObject
      if o.hrGetObject ≠ S_OK then ([evGO], .exn o.hrGetObject)
      else
        let evGM := Event.eGetMethod methodName o.hrGetMethod
        if ¬ o.inParamsClass then ([evGO, evGM], .crash)
        else
          let evSp := Event.eSpawnInstance o.hrSpawn
          if ¬ o.spawnedOk ∧ iparams ≠ [] then ([evGO, evGM, evSp], .crash)
          else
            let pre := evGO :: evGM :: evSp :: putLoop o iparams 0
            match GetValue objValid "__RELPATH" o.relPathVal with
            | (tr2, .ok relPath) =>
              let evEx := Event.eExecMethodCall relPath methodName 0 o.hrExec
              match o.outParams with
              | none => (pre ++ tr2 ++ [evEx], .ok (emptyVariant, oparams))
              | some op =>
                let evGR := Event.eGet "ReturnValue" op.hrGetReturnValue
                let evBE := Event.eBeginEnum WBEM_FLAG_NONSYSTEM_ONLY op.hrBeginEnum
                let (ltr, mf) := outParamsLoop op.nexts oparams
                (pre ++ tr2 ++ (evEx :: evGR :: evBE :: ltr)
                   ++ [Event.eEndEnum op.hrEndEnum],
                 .ok (op.returnValue, mf))
            | (tr2, .exn e) => (pre ++ tr2, .exn e)
            | (tr2, .term) => (pre ++ tr2, .term)
            | (tr2, .crash) => (pre ++ tr2, .crash))

end Object

namespace Services

/-- Oracle for the `Services` constructor: the HRESULTs of its four
bootstrap calls. -/
structure CtorOracle where
  hrCoInitSec : HRESULT
  hrCoCreate : HRESULT
  hrConnect : HRESULT
  hrBlanket : HRESULT

/-- Body of `Services::Services(lpResourcePath)`: CoInitializeSecurity,
CoCreateInstance(CLSID_WbemLocator), ConnectServer on the resource path,
CoSetProxyBlanket — each checked with throw_if, so the first non-S_OK
HRESULT throws and no later step runs. -/
def ctor (resourcePath : String) (o : CtorOracle) : List Event × Outcome Unit :=
  let e1 := Event.eCoInitSecurity o.hrCoInitSec
  if o.hrCoInitSec ≠ S_OK then ([e1], .exn o.hrCoInitSec)
  else
    let e2 := Event.eCoCreateWbemLocator o.hrCoCreate
    if o.hrCoCreate ≠ S_OK then ([e1, e2], .exn o.hrCoCreate)
    else
      let e3 := Event.eConnectServer resourcePath o.hrConnect
      if o.hrConnect ≠ S_OK then ([e1, e2, e3], .exn o.hrConnect)
      else
        let e4 := Event.eCoSetProxyBlanket o.hrBlanket
        if o.hrBlanket ≠ S_OK then ([e1, e2, e3, e4], .exn o.hrBlanket)
        else ([e1, e2, e3, e4], .ok ())

/-- The constructor as observed by a caller under ISO C++ semantics: the
declaration carries a `throw()` dynamic exception specification, so an
exception escaping the body does not propagate to the caller — the
runtime calls std::terminate instead. -/
def ctorAsDeclared (resourcePath : String) (o : CtorOracle) :
    List Event × Outcome Unit :=
  match ctor resourcePath o with
  | (tr, .exn _) => (tr, .term)
  | x => x

/-- Oracle for `Services::GetInstances`: the CreateInstanceEnum HRESULT
and the `IEnumWbemClassObject::Next` responses (HRESULT and the
`returned` count each call writes). -/
structure GetInstancesOracle where
  hrCreateEnum : HRESULT
  nexts : List (HRESULT × Nat)

/-- The Next loop of `Services::GetInstances`: breaks when `returned` is
0, then (only after that check) throw_if on the Next HRESULT, then stores
the Object.  The embedding returns the number of objects collected. -/
def getInstancesLoop : List (HRESULT × Nat) → List Event × Outcome Nat
  | [] => ([], .ok 0)
  | (hr, ret) :: rest =>
    let ev := Event.eNextEnum hr
    if ret = 0 then ([ev], .ok 0)
    else if hr ≠ S_OK then ([ev], .exn hr)
    else
      match getInstancesLoop rest with
      | (tr, .ok n) => (ev :: tr, .ok (n + 1))
      | (tr, r) => (ev :: tr, r)

/-- Embedding of `Services::GetInstances(lpClassName)`: throw_if on a null m_pService
(E_POINTER), CreateInstanceEnum checked with throw_if, then the Next
loop; every collected Object holds the same m_pService. -/
def GetInstances (servicesValid : Bool) (className : String)
    (o : GetInstancesOracle) : List Event × Outcome Nat :=
  if ¬ servicesValid then ([], .exn E_POINTER)
  else
    let ev := Event.eCreateInstanceEnum className o.hrCreateEnum
    if o.hrCreateEnum ≠ S_OK then ([ev], .exn o.hrCreateEnum)
    else
      let (tr, r) := getInstancesLoop o.nexts
      (ev :: tr, r)

/-- Embedding of `Services::GetObject(lpObjectName)`: throw_if on a null m_pService
(E_POINTER), then `m_pService->GetObject` checked with throw_if, and the
resulting Object (holding the same m_pService) is returned. -/
def GetObjectByName (servicesValid : Bool) (objectName : String)
    (hr : HRESULT) : List Event × Outcome Unit :=
  if ¬ servicesValid then ([], .exn E_POINTER)
  else
    let ev := Event.eGetObject objectName hr
    if hr ≠ S_OK then ([ev], .exn hr)
    else ([ev], .ok ())

/-- A single-quote character, written by code point to match the
character appended around the filter in `GetClassNames`. -/
def squote : String := "\x27"

/-- The WQL query string built by `Services::GetClassNames`: the base
query, plus, when the filter is non-empty, a LIKE clause with the filter
wrapped in single quotes. -/
def classNamesQuery (filter : String) : String :=
  let query := "SELECT * FROM meta_class"
  if filter ≠ "" then
    query ++ " where __CLASS LIKE " ++ squote ++ filter ++ squote
  else query

/-- Oracle entry for one iteration of the `GetClassNames` enumeration
loop: the Next HRESULT and the `uReturn` count it writes, then — when an
object was returned — the `Get("__CLASS")` HRESULT and the variant it
writes. -/
structure ClassObjResp where
  hrNext : HRESULT
  uReturn : Nat
  hrGet : HRESULT
  classVal : CComVariant

/-- The enumeration loop of `Services::GetClassNames`: Next (HRESULT
ignored), break when `uReturn` is 0, `Get("__CLASS")`, and on
SUCCEEDED(hres) insert the bstrVal into the result set (failures are
silently skipped). -/
def classNamesLoop : List ClassObjResp → Finset String → List Event × Finset String
  | [], acc => ([], acc)
  | r :: rest, acc =>
    let ev1 := Event.eNextEnum r.hrNext
    if r.uReturn = 0 then ([ev1], acc)
    else
      let ev2 := Event.eGet "__CLASS" r.hrGet
      let acc1 := if 0 ≤ r.hrGet then insert r.classVal.bstrVal acc else acc
      let (tr, res) := classNamesLoop rest acc1
      (ev1 :: ev2 :: tr, res)

/-- Oracle for `Services::GetClassNames`: the ExecQuery HRESULT and the
loop responses. -/
structure GetClassNamesOracle where
  hrExecQuery : HRESULT
  objs : List ClassObjResp

/-- Embedding of `Services::GetClassNames(filter)`: builds the WQL query (no null
check on m_pService, so an invalid services pointer is a null
dereference), ExecQuery("WQL", query) checked with throw_if, then the
enumeration loop collecting __CLASS values into a std::set. -/
def GetClassNames (servicesValid : Bool) (filter : String)
    (o : GetClassNamesOracle) : List Event × Outcome (Finset String) :=
  if ¬ servicesValid then ([], .crash)
  else
    let ev := Event.eExecQuery "WQL" (classNamesQuery filter) o.hrExecQuery
    if o.hrExecQuery ≠ S_OK then ([ev], .exn o.hrExecQuery)
    else
      let (tr, s) := classNamesLoop o.objs ∅
      (ev :: tr, .ok s)

end Services

/-! ## Claim theorems -/

/-- Claim C9: `Object::GetValue` converts the fetched property value by
variant type: VT_NULL yields "NULL"; VT_BOOL yields "true" exactly when
the low byte of the variant (the `bVal` union field, not the 16-bit
VARIANT_BOOL field) is nonzero and "false" otherwise; VT_LPWSTR and
VT_BSTR values are returned as-is; every other type is coerced to VT_BSTR
and the resulting string returned. -/
theorem C9_getValue_conversion (property : String) (val : CComVariant) :
    (val.vt = VT_NULL →
      (Object.GetValue true property ⟨S_OK, val⟩).2 = .ok "NULL") ∧
    (val.vt = VT_BOOL →
      (Object.GetValue true property ⟨S_OK, val⟩).2 =
        .ok (if val.u16 % 256 ≠ 0 then "true" else "false")) ∧
    (val.vt = VT_LPWSTR ∨ val.vt = VT_BSTR →
      (Object.GetValue true property ⟨S_OK, val⟩).2 = .ok val.bstrVal) ∧
    (val.vt ≠ VT_NULL → val.vt ≠ VT_BOOL → val.vt ≠ VT_LPWSTR → val.vt ≠ VT_BSTR →
      (Object.GetValue true property ⟨S_OK, val⟩).2 = .ok val.changeTypeBstr) := by
  refine ⟨fun h => ?_, fun h => ?_, fun h => ?_, fun h1 h2 h3 h4 => ?_⟩
  · simp [Object.GetValue, Object.valueToString, S_OK, h]
  · simp [Object.GetValue, Object.valueToString, S_OK, h, VT_NULL, VT_BOOL,
      CComVariant.bVal]
  · rcases h with h | h <;>
      simp [Object.GetValue, Object.valueToString, S_OK, h, VT_NULL, VT_BOOL,
        VT_LPWSTR, VT_BSTR]
  · simp [Object.GetValue, Object.valueToString, S_OK, h1, h2, h3, h4]

/-- Witness for C9 at a concrete input: a VT_BOOL variant whose 16-bit
payload is 0x0100 — nonzero as a VARIANT_BOOL, but with a zero low byte —
is rendered "false", confirming that the code tests `bVal`. -/
theorem C9_getValue_conversion_witness :
    (Object.GetValue true "Compressed"
      ⟨S_OK, { vt := VT_BOOL, u16 := 0x0100 }⟩).2 = .ok "false" := by
  have h := (C9_getValue_conversion "Compressed" { vt := VT_BOOL, u16 := 0x0100 }).2.1 rfl
  simpa using h

/-- Claim C4 (code-bug evaluation): when CoInitializeSecurity fails with
RPC_E_TOO_LATE, the constructor body throws at the first step and no
later bootstrap call runs, and on all-S_OK responses all four calls run
in order — but the constructor is declared with a `throw()` exception
specification, so under ISO C++ semantics the escaping exception calls
std::terminate instead of propagating to the caller that main.cpp
expects to catch it. -/
theorem C4_ctor_throwSpec_eval :
    Services.ctor "ROOT\\CIMV2" ⟨RPC_E_TOO_LATE, S_OK, S_OK, S_OK⟩ =
      ([Event.eCoInitSecurity RPC_E_TOO_LATE], .exn RPC_E_TOO_LATE) ∧
    Services.ctorAsDeclared "ROOT\\CIMV2" ⟨RPC_E_TOO_LATE, S_OK, S_OK, S_OK⟩ =
      ([Event.eCoInitSecurity RPC_E_TOO_LATE], .term) ∧
    Services.ctor "ROOT\\CIMV2" ⟨S_OK, S_OK, S_OK, S_OK⟩ =
      ([Event.eCoInitSecurity S_OK, Event.eCoCreateWbemLocator S_OK,
        Event.eConnectServer "ROOT\\CIMV2" S_OK, Event.eCoSetProxyBlanket S_OK],
       .ok ()) := by
  refine ⟨by decide, by decide, by decide⟩

/-- Claim C1 (counterexample): inside `Object::GetMethods` a COM call can
return a non-S_OK HRESULT without the operation raising any exception:
when BeginMethodEnumeration returns WBEM_E_ACCESS_DENIED the method
returns the empty list normally. -/
theorem C1_counterexample :
    Object.GetMethods true true
      { classVal := ⟨S_OK, { vt := VT_BSTR, bstrVal := "Win32_LogicalDisk" }⟩,
        hrGetObject := S_OK, hrBegin := WBEM_E_ACCESS_DENIED,
        nexts := [], hrEnd := S_OK } =
      ([Event.eGet "__CLASS" S_OK,
        Event.eGetObject "Win32_LogicalDisk" S_OK,
        Event.eBeginMethodEnum WBEM_E_ACCESS_DENIED], .ok []) ∧
    WBEM_E_ACCESS_DENIED ≠ S_OK := by
  exact ⟨by decide, by decide⟩

/-- Claim C1 as amended: whenever a COM call that the wrapper guards with
throw_if returns a non-S_OK HRESULT, the operation raises an exception
carrying the translated error, and no further COM call runs after the
failing one other than the SafeArrayDestroy cleanup issued by the
SAHandle destructor during unwind.  The guarded calls are: in GetMethods,
`Get("__CLASS")` (via GetValue), `GetObject`, and every call of the
EnumNames routine applied to a method signature (GetNames, the bound and
element reads, and the destroy, whose failures propagate out of
GetMethods); in ExecMethod, `Get("__CLASS")`, `GetObject` and
`Get("__RELPATH")`; in GetClassNames, only `ExecQuery`.  The remaining
COM calls of these three operations are unchecked. -/
theorem C1_checked_calls_throw_and_stop
    (og : Object.GetMethodsOracle) (oe : Object.ExecMethodOracle)
    (oc : Services.GetClassNamesOracle) (sig2 : NamesOracle) (mn : String)
    (ip : List (String × CComVariant)) (m : param_map) (filter : String) :
    (og.classVal.hr ≠ S_OK →
      Object.GetMethods true true og =
        ([Event.eGet "__CLASS" og.classVal.hr], .exn og.classVal.hr)) ∧
    (og.classVal.hr = S_OK → og.hrGetObject ≠ S_OK →
      Object.GetMethods true true og =
        ([Event.eGet "__CLASS" S_OK,
          Event.eGetObject (Object.valueToString og.classVal.val) og.hrGetObject],
         .exn og.hrGetObject)) ∧
    (∀ (r : NextMethodResp) (rest : List NextMethodResp) (nm : String)
        (sig : NamesOracle) (e : HRESULT),
      og.classVal.hr = S_OK → og.hrGetObject = S_OK → ¬ og.hrBegin < 0 →
      og.nexts = r :: rest → ¬ r.hr < 0 → r.name = some nm →
      r.inSig = some sig → (EnumNames sig).2 = .exn e →
      Object.GetMethods true true og =
        ([Event.eGet "__CLASS" S_OK,
          Event.eGetObject (Object.valueToString og.classVal.val) S_OK,
          Event.eBeginMethodEnum og.hrBegin,
          Event.eNextMethod r.hr] ++ (EnumNames sig).1,
         .exn e)) ∧
    (sig2.hrGetNames ≠ S_OK →
      EnumNames sig2 =
        ([Event.eGetNames sig2.saId enumNamesFlags sig2.hrGetNames],
         .exn sig2.hrGetNames)) ∧
    (sig2.hrGetNames = S_OK → sig2.hrLBound ≠ S_OK → sig2.hrDestroy = S_OK →
      EnumNames sig2 =
        ([Event.eGetNames sig2.saId enumNamesFlags S_OK,
          Event.eGetLBound sig2.saId sig2.hrLBound,
          Event.eSafeArrayDestroy sig2.saId sig2.hrDestroy],
         .exn sig2.hrLBound)) ∧
    (oe.classVal.hr ≠ S_OK →
      Object.ExecMethod true true mn ip m oe =
        ([Event.eGet "__CLASS" oe.classVal.hr], .exn oe.classVal.hr)) ∧
    (oe.classVal.hr = S_OK → oe.hrGetObject ≠ S_OK →
      Object.ExecMethod true true mn ip m oe =
        ([Event.eGet "__CLASS" S_OK,
          Event.eGetObject (Object.valueToString oe.classVal.val) oe.hrGetObject],
         .exn oe.hrGetObject)) ∧
    (oe.classVal.hr = S_OK → oe.hrGetObject = S_OK → oe.inParamsClass = true →
      oe.spawnedOk = true → oe.relPathVal.hr ≠ S_OK →
      Object.ExecMethod true true mn ip m oe =
        ([Event.eGet "__CLASS" S_OK,
          Event.eGetObject (Object.valueToString oe.classVal.val) S_OK,
          Event.eGetMethod mn oe.hrGetMethod,
          Event.eSpawnInstance oe.hrSpawn] ++ Object.putLoop oe ip 0 ++
          [Event.eGet "__RELPATH" oe.relPathVal.hr],
         .exn oe.relPathVal.hr)) ∧
    (oc.hrExecQuery ≠ S_OK →
      Services.GetClassNames true filter oc =
        ([Event.eExecQuery "WQL" (Services.classNamesQuery filter) oc.hrExecQuery],
         .exn oc.hrExecQuery)) := by
  refine ⟨fun h => ?_, fun h1 h2 => ?_,
    fun r rest nm sig e h1 h2 h3 hnx hhr hnm hin hE => ?_,
    fun h => ?_, fun h1 h2 h3 => ?_, fun h => ?_, fun h1 h2 => ?_,
    fun h1 h2 h3 h4 h5 => ?_, fun h => ?_⟩
  · simp [Object.GetMethods, Object.GetValue, andThen, h]
  · simp [Object.GetMethods, Object.GetValue, andThen, h1, h2]
  · rcases hp : EnumNames sig with ⟨str, sr⟩
    rw [hp] at hE
    simp only at hE
    subst hE
    simp [Object.GetMethods, Object.GetValue, andThen, getMethodsLoop,
      enumOptSig, h1, h2, h3, hnx, hhr, hnm, hin, hp]
  · simp [EnumNames, h]
  · simp [EnumNames, enumNamesBody, runSAHandle, h1, h2, h3]
  · simp [Object.ExecMethod, Object.GetValue, andThen, h]
  · simp [Object.ExecMethod, Object.GetValue, andThen, h1, h2]
  · simp [Object.ExecMethod, Object.GetValue, andThen, h1, h2, h3, h4, h5]
  · simp [Services.GetClassNames, h]

/-- Concrete ExecMethod oracle for the C1 witness: every call up to
`Get("__RELPATH")` succeeds, and that guarded call fails. -/
def c1RelOracle : Object.ExecMethodOracle :=
  { classVal := ⟨S_OK, { vt := VT_BSTR, bstrVal := "Win32_LogicalDisk" }⟩
    hrGetObject := S_OK
    hrGetMethod := S_OK
    inParamsClass := true
    hrSpawn := S_OK
    spawnedOk := true
    putHr := fun _ => S_OK
    relPathVal := ⟨WBEM_E_FAILED, emptyVariant⟩
    hrExec := S_OK
    outParams := none }

/-- Concrete signature-enumeration oracle for the C1 witness: GetNames on
the in-parameter signature fails. -/
def c1BadSig : NamesOracle :=
  ⟨WBEM_E_FAILED, 5, S_OK, 0, S_OK, 0, (fun _ => (S_OK, "")), S_OK⟩

/-- Concrete GetMethods oracle for the C1 witness: the first NextMethod
response names a method whose in-parameter signature enumeration fails. -/
def c1SigOracle : Object.GetMethodsOracle :=
  { classVal := ⟨S_OK, { vt := VT_BSTR, bstrVal := "Win32_LogicalDisk" }⟩
    hrGetObject := S_OK
    hrBegin := S_OK
    nexts := [{ hr := S_OK, name := some "chkdsk", inSig := some c1BadSig,
                outSig := none }]
    hrEnd := S_OK }

/-- Witness for the amended C1 at concrete inputs: a failing
`Get("__CLASS")` in GetMethods, a failing `Get("__RELPATH")` in
ExecMethod after the Put loop, a GetNames failure inside the EnumNames
call on a method signature propagating out of GetMethods, and a failing
`ExecQuery` in GetClassNames. -/
theorem C1_checked_calls_throw_and_stop_witness :
    Object.GetMethods true true
      ⟨⟨WBEM_E_FAILED, emptyVariant⟩, S_OK, S_OK, [], S_OK⟩ =
      ([Event.eGet "__CLASS" WBEM_E_FAILED], .exn WBEM_E_FAILED) ∧
    (Object.ExecMethod true true "chkdsk" [] (fun _ => none) c1RelOracle).1 =
      [Event.eGet "__CLASS" S_OK,
       Event.eGetObject "Win32_LogicalDisk" S_OK,
       Event.eGetMethod "chkdsk" S_OK,
       Event.eSpawnInstance S_OK,
       Event.eGet "__RELPATH" WBEM_E_FAILED] ∧
    (Object.ExecMethod true true "chkdsk" [] (fun _ => none) c1RelOracle).2 =
      .exn WBEM_E_FAILED ∧
    (Object.GetMethods true true c1SigOracle).1 =
      [Event.eGet "__CLASS" S_OK,
       Event.eGetObject "Win32_LogicalDisk" S_OK,
       Event.eBeginMethodEnum S_OK,
       Event.eNextMethod S_OK,
       Event.eGetNames 5 enumNamesFlags WBEM_E_FAILED] ∧
    (Object.GetMethods true true c1SigOracle).2 = .exn WBEM_E_FAILED ∧
    Services.GetClassNames true ""
      ⟨WBEM_E_ACCESS_DENIED, []⟩ =
      ([Event.eExecQuery "WQL" (Services.classNamesQuery "") WBEM_E_ACCESS_DENIED],
       .exn WBEM_E_ACCESS_DENIED) := by
  have h1 := C1_checked_calls_throw_and_stop
    ⟨⟨WBEM_E_FAILED, emptyVariant⟩, S_OK, S_OK, [], S_OK⟩ c1RelOracle
    ⟨WBEM_E_ACCESS_DENIED, []⟩ c1BadSig "chkdsk" [] (fun _ => none) ""
  have h2 := C1_checked_calls_throw_and_stop c1SigOracle c1RelOracle
    ⟨WBEM_E_ACCESS_DENIED, []⟩ c1BadSig "chkdsk" [] (fun _ => none) ""
  have hrel := h1.2.2.2.2.2.2.2.1 (by rfl) (by rfl) (by rfl) (by rfl) (by decide)
  have hd := h2.2.2.2.1 (by decide)
  have hE : (EnumNames c1BadSig).2 = .exn WBEM_E_FAILED := by
    rw [hd]; rfl
  have hc := h2.2.2.1
    { hr := S_OK, name := some "chkdsk", inSig := some c1BadSig, outSig := none }
    [] "chkdsk" c1BadSig WBEM_E_FAILED (by rfl) (by rfl) (by decide) (by rfl)
    (by decide) (by rfl) (by rfl) hE
  refine ⟨h1.1 (by decide), ?_, ?_, ?_, ?_, h1.2.2.2.2.2.2.2.2 (by decide)⟩
  · rw [hrel]; rfl
  · rw [hrel]; rfl
  · rw [hc, hd]; rfl
  · rw [hc]

/-- The SAFEARRAY contents the element loop reads when every
SafeArrayGetElement succeeds: the element at each index from `lo` on,
for `n` consecutive indices. -/
def expectedElems (o : NamesOracle) (lo : Int) : Nat → List String
  | 0 => []
  | n + 1 => (o.getElem lo).2 :: expectedElems o (lo + 1) n

/-- The names `EnumNames` returns on full success: one element per index
from the lower bound to the upper bound inclusive. -/
def expectedNames (o : NamesOracle) : List String :=
  expectedElems o o.lLower (o.lUpper + 1 - o.lLower).toNat

theorem expectedElems_length (o : NamesOracle) :
    ∀ (n : Nat) (lo : Int), (expectedElems o lo n).length = n
  | 0, _ => rfl
  | n + 1, lo => by simp [expectedElems, expectedElems_length o n (lo + 1)]

theorem expectedElems_get (o : NamesOracle) :
    ∀ (n k : Nat) (lo : Int), k < n →
      (expectedElems o lo n)[k]? = some (o.getElem (lo + k)).2
  | 0, k, _, hk => absurd hk (Nat.not_lt_zero k)
  | n + 1, 0, lo, _ => by simp [expectedElems]
  | n + 1, k + 1, lo, hk => by
    have ih := expectedElems_get o n k (lo + 1) (by omega)
    have e : lo + 1 + (k : Int) = lo + ((k : Int) + 1) := by ring
    rw [e] at ih
    simpa [expectedElems] using ih

theorem enumElems_ok (o : NamesOracle) :
    ∀ (n : Nat) (lo : Int),
      (∀ k : Nat, k < n → (o.getElem (lo + k)).1 = S_OK) →
      (enumElems o lo n).2 = .ok (expectedElems o lo n)
  | 0, _, _ => rfl
  | n + 1, lo, h => by
    have h0 : (o.getElem lo).1 = S_OK := by simpa using h 0 (Nat.succ_pos n)
    have harg : ∀ k : Nat, k < n → (o.getElem (lo + 1 + k)).1 = S_OK := by
      intro k hk
      have := h (k + 1) (by omega)
      have e : lo + ((k : Int) + 1) = lo + 1 + (k : Int) := by ring
      rw [show ((k + 1 : Nat) : Int) = (k : Int) + 1 by push_cast; ring, e] at this
      exact this
    have ih := enumElems_ok o n (lo + 1) harg
    rcases hp : enumElems o (lo + 1) n with ⟨tr, r⟩
    have hr2 : r = .ok (expectedElems o (lo + 1) n) := by rw [← ih, hp]
    subst hr2
    simp [enumElems, h0, hp, expectedElems]

theorem EnumNames_ok (o : NamesOracle)
    (hN : o.hrGetNames = S_OK) (hL : o.hrLBound = S_OK) (hU : o.hrUBound = S_OK)
    (hD : o.hrDestroy = S_OK)
    (hE : ∀ k : Nat, k < (o.lUpper + 1 - o.lLower).toNat →
      (o.getElem (o.lLower + k)).1 = S_OK) :
    (EnumNames o).2 = .ok (expectedNames o) := by
  have he := enumElems_ok o (o.lUpper + 1 - o.lLower).toNat o.lLower hE
  rcases hp : enumElems o o.lLower (o.lUpper + 1 - o.lLower).toNat with ⟨tr, r⟩
  have hr2 : r = .ok (expectedNames o) := by
    unfold expectedNames
    rw [← he, hp]
  subst hr2
  simp [EnumNames, enumNamesBody, runSAHandle, hN, hL, hU, hD, hp]

/-- Claim C5: `EnumNames`, and hence `Object::GetProperties`, returns the
names in SAFEARRAY index order, one entry per index from the lower bound
to the upper bound inclusive, so the result length is upper − lower + 1;
the GetNames call requests non-system names only
(WBEM_FLAG_ALWAYS | WBEM_FLAG_NONSYSTEM_ONLY). -/
theorem C5_names_in_index_order (po : Object.GetPropsOracle)
    (hN : po.inner.hrGetNames = S_OK) (hL : po.inner.hrLBound = S_OK)
    (hU : po.inner.hrUBound = S_OK) (hD : po.inner.hrDestroy = S_OK)
    (hE : ∀ k : Nat, k < (po.inner.lUpper + 1 - po.inner.lLower).toNat →
      (po.inner.getElem (po.inner.lLower + k)).1 = S_OK)
    (hON : po.outer.hrGetNames = S_OK) (hOD : po.outer.hrDestroy = S_OK)
    (hLU : po.inner.lLower ≤ po.inner.lUpper + 1) :
    (EnumNames po.inner).2 = .ok (expectedNames po.inner) ∧
    (Object.GetProperties true po).2 = .ok (expectedNames po.inner) ∧
    ((expectedNames po.inner).length : Int) =
      po.inner.lUpper - po.inner.lLower + 1 ∧
    (∀ k : Nat, k < (expectedNames po.inner).length →
      (expectedNames po.inner)[k]? =
        some (po.inner.getElem (po.inner.lLower + k)).2) ∧
    (EnumNames po.inner).1.head? =
      some (Event.eGetNames po.inner.saId enumNamesFlags po.inner.hrGetNames) := by
  have h1 := EnumNames_ok po.inner hN hL hU hD hE
  refine ⟨h1, ?_, ?_, ?_, ?_⟩
  · rcases hp : EnumNames po.inner with ⟨tr, r⟩
    have hr2 : r = .ok (expectedNames po.inner) := by rw [← h1, hp]
    subst hr2
    simp [Object.GetProperties, runSAHandle, hON, hOD, hp]
  · rw [expectedNames, expectedElems_length]
    omega
  · intro k hk
    rw [expectedNames, expectedElems_length] at hk
    exact expectedElems_get po.inner _ k po.inner.lLower hk
  · simp [EnumNames, hN]

/-- Witness for C5 at a concrete three-element SAFEARRAY with bounds 2..4. -/
theorem C5_names_in_index_order_witness :
    (EnumNames
      ⟨S_OK, 7, S_OK, 2, S_OK, 4,
        (fun i => (S_OK, if i = 2 then "DeviceID" else
                         if i = 3 then "Size" else "VolumeName")), S_OK⟩).2 =
      .ok ["DeviceID", "Size", "VolumeName"] := by
  have h := C5_names_in_index_order
    ⟨⟨S_OK, 3, S_OK, 0, S_OK, 0, (fun _ => (S_OK, "")), S_OK⟩,
     ⟨S_OK, 7, S_OK, 2, S_OK, 4,
        (fun i => (S_OK, if i = 2 then "DeviceID" else
                         if i = 3 then "Size" else "VolumeName")), S_OK⟩⟩
    rfl rfl rfl rfl
    (by intro k hk
        have h3 : k < 3 := hk
        interval_cases k <;> rfl)
    rfl rfl (by decide)
  exact h.1.trans (by rfl)

/-- A SafeArrayDestroy event on a given array. -/
def isDestroyOf (saId : Nat) : Event → Bool
  | .eSafeArrayDestroy i _ => i == saId
  | _ => false

/-- A successful GetNames event on a given array. -/
def isNamesOkOf (saId : Nat) : Event → Bool
  | .eGetNames i _ hr => i == saId && hr == S_OK
  | _ => false

/-- Number of SafeArrayDestroy calls on array `saId` in a trace. -/
def destroyCount (saId : Nat) (tr : List Event) : Nat :=
  tr.countP (isDestroyOf saId)

/-- Number of successful GetNames calls that produced array `saId`. -/
def namesOkCount (saId : Nat) (tr : List Event) : Nat :=
  tr.countP (isNamesOkOf saId)

theorem enumElems_counts (o : NamesOracle) (saId : Nat) :
    ∀ (n : Nat) (lo : Int),
      destroyCount saId (enumElems o lo n).1 = 0 ∧
      namesOkCount saId (enumElems o lo n).1 = 0
  | 0, _ => by simp [enumElems, destroyCount, namesOkCount]
  | n + 1, lo => by
    have ih := enumElems_counts o saId n (lo + 1)
    rcases hp : enumElems o (lo + 1) n with ⟨tr, r⟩
    rw [hp] at ih
    by_cases h : (o.getElem lo).1 = S_OK <;>
      cases r <;>
        simp_all [enumElems, hp, destroyCount, namesOkCount, isDestroyOf,
          isNamesOkOf, List.countP_cons]

theorem enumNamesBody_counts (o : NamesOracle) (saId : Nat) :
    destroyCount saId (enumNamesBody o).1 = 0 ∧
    namesOkCount saId (enumNamesBody o).1 = 0 := by
  have he := enumElems_counts o saId (o.lUpper + 1 - o.lLower).toNat o.lLower
  rcases hp : enumElems o o.lLower (o.lUpper + 1 - o.lLower).toNat with ⟨tr, r⟩
  rw [hp] at he
  by_cases hL : o.hrLBound = S_OK <;> by_cases hU : o.hrUBound = S_OK <;>
    simp_all [enumNamesBody, hp, destroyCount, namesOkCount, isDestroyOf,
      isNamesOkOf, List.countP_cons]

theorem EnumNames_counts (o : NamesOracle) (saId : Nat) :
    destroyCount saId (EnumNames o).1 = namesOkCount saId (EnumNames o).1 := by
  have hb := enumNamesBody_counts o saId
  rcases hp : enumNamesBody o with ⟨tr, r⟩
  rw [hp] at hb
  simp only [destroyCount, namesOkCount] at hb
  obtain ⟨hb1, hb2⟩ := hb
  by_cases hN : o.hrGetNames = S_OK
  · have htr : (EnumNames o).1 =
        Event.eGetNames o.saId enumNamesFlags o.hrGetNames ::
          (tr ++ [Event.eSafeArrayDestroy o.saId o.hrDestroy]) := by
      simp [EnumNames, hN, runSAHandle, hp]
    rw [htr]
    simp [destroyCount, namesOkCount, List.countP_cons, List.countP_append,
      isDestroyOf, isNamesOkOf, hb1, hb2, hN]
  · simp [EnumNames, hN, destroyCount, namesOkCount, List.countP_cons,
      isDestroyOf, isNamesOkOf]

/-- Claim C7: on every path out of `EnumNames` and of
`Object::GetProperties` — normal return or exception — each SAFEARRAY
obtained from a successful GetNames call is destroyed exactly once via
SafeArrayDestroy: in every trace, for every array identity, the number of
SafeArrayDestroy calls equals the number of successful GetNames calls. -/
theorem C7_safearray_raii (o : NamesOracle) (po : Object.GetPropsOracle)
    (saId : Nat) :
    destroyCount saId (EnumNames o).1 = namesOkCount saId (EnumNames o).1 ∧
    destroyCount saId (Object.GetProperties true po).1 =
      namesOkCount saId (Object.GetProperties true po).1 := by
  refine ⟨EnumNames_counts o saId, ?_⟩
  have hi := EnumNames_counts po.inner saId
  rcases hp : EnumNames po.inner with ⟨tr, r⟩
  rw [hp] at hi
  by_cases hN : po.outer.hrGetNames = S_OK
  · simp [Object.GetProperties, hN, runSAHandle, hp, destroyCount, namesOkCount,
      List.countP_cons, List.countP_append, isDestroyOf, isNamesOkOf] at hi ⊢
    omega
  · simp [Object.GetProperties, hN, destroyCount, namesOkCount,
      List.countP_cons, isDestroyOf, isNamesOkOf]

/-- The (name, VARTYPE) projection of the Put calls in a trace. -/
def putsOf (tr : List Event) : List (String × Nat) :=
  tr.filterMap fun e =>
    match e with
    | .ePut n vt _ => some (n, vt)
    | _ => none

theorem putsOf_putLoop (o : Object.ExecMethodOracle) :
    ∀ (ip : List (String × CComVariant)) (idx : Nat),
      putsOf (Object.putLoop o ip idx) = ip.map fun p => (p.1, p.2.vt)
  | [], _ => rfl
  | (n, v) :: rest, idx => by
    have ih := putsOf_putLoop o rest (idx + 1)
    simp only [putsOf] at ih ⊢
    simp [Object.putLoop, List.filterMap_cons, ih]

/-- The out-parameter entries the Next loop actually processes: the
(name, value) pairs up to the first null name from the provider. -/
def processedEntries : List (HRESULT × Option String × CComVariant) →
    List (String × CComVariant)
  | [] => []
  | (_, none, _) :: _ => []
  | (_, some n, v) :: rest => (n, v) :: processedEntries rest

/-- The map updates the Next loop applies: each processed entry is bound
under its name, except entries named "ReturnValue", which are skipped. -/
def applyEntries : List (String × CComVariant) → param_map → param_map
  | [], m => m
  | (n, v) :: rest, m =>
    applyEntries rest (if n = "ReturnValue" then m else Object.updateMap m n v)

theorem outParamsLoop_snd :
    ∀ (nx : List (HRESULT × Option String × CComVariant)) (m : param_map),
      (Object.outParamsLoop nx m).2 = applyEntries (processedEntries nx) m
  | [], _ => rfl
  | (_, none, _) :: _, _ => rfl
  | (hr, some n, v) :: rest, m => by
    have ih := outParamsLoop_snd rest
      (if n = "ReturnValue" then m else Object.updateMap m n v)
    rcases hl : Object.outParamsLoop rest
      (if n = "ReturnValue" then m else Object.updateMap m n v) with ⟨tr, mf⟩
    rw [hl] at ih
    simp [Object.outParamsLoop, hl, processedEntries, applyEntries, ih]

theorem applyEntries_frame :
    ∀ (entries : List (String × CComVariant)) (m : param_map) (k : String),
      k ∉ entries.map Prod.fst → applyEntries entries m k = m k
  | [], _, _, _ => rfl
  | (n, v) :: rest, m, k, hk => by
    simp only [List.map_cons, List.mem_cons, not_or] at hk
    have ih := applyEntries_frame rest
      (if n = "ReturnValue" then m else Object.updateMap m n v) k hk.2
    rw [applyEntries, ih]
    by_cases hn : n = "ReturnValue" <;> simp [Object.updateMap, hn, hk.1]

theorem applyEntries_rv :
    ∀ (entries : List (String × CComVariant)) (m : param_map),
      applyEntries entries m "ReturnValue" = m "ReturnValue"
  | [], _ => rfl
  | (n, v) :: rest, m => by
    have ih := applyEntries_rv rest
      (if n = "ReturnValue" then m else Object.updateMap m n v)
    rw [applyEntries, ih]
    by_cases hn : n = "ReturnValue"
    · simp [hn]
    · have hn2 : ¬("ReturnValue" = n) := fun h => hn h.symm
      simp [Object.updateMap, hn, hn2]

theorem applyEntries_mem :
    ∀ (entries : List (String × CComVariant)) (m : param_map),
      (entries.map Prod.fst).Nodup →
      ∀ p ∈ entries, p.1 ≠ "ReturnValue" →
        applyEntries entries m p.1 = some p.2
  | [], _, _, p, hp, _ => absurd hp (List.not_mem_nil p)
  | (n, v) :: rest, m, hnd, p, hp, hrv => by
    simp only [List.map_cons, List.nodup_cons] at hnd
    rcases List.mem_cons.mp hp with h | h
    · subst h
      rw [applyEntries,
        applyEntries_frame rest _ n hnd.1]
      simp only [ne_eq] at hrv
      simp [hrv, Object.updateMap]
    · exact applyEntries_mem rest _ hnd.2 p h hrv

/-- Unfolding of `Object::ExecMethod` when every checked call succeeds,
the in-parameter class and instance pointers are non-null, and ExecMethod
produces no out-parameter object. -/
theorem ExecMethod_ok_none (oe : Object.ExecMethodOracle) (mn : String)
    (ip : List (String × CComVariant)) (m : param_map)
    (hc : oe.classVal.hr = S_OK) (hg : oe.hrGetObject = S_OK)
    (hip : oe.inParamsClass = true) (hs : oe.spawnedOk = true)
    (hr : oe.relPathVal.hr = S_OK) (ho : oe.outParams = none) :
    Object.ExecMethod true true mn ip m oe =
      ([Event.eGet "__CLASS" S_OK,
        Event.eGetObject (Object.valueToString oe.classVal.val) S_OK,
        Event.eGetMethod mn oe.hrGetMethod,
        Event.eSpawnInstance oe.hrSpawn] ++ Object.putLoop oe ip 0 ++
        [Event.eGet "__RELPATH" S_OK,
         Event.eExecMethodCall (Object.valueToString oe.relPathVal.val) mn 0
           oe.hrExec],
       .ok (emptyVariant, m)) := by
  simp [Object.ExecMethod, Object.GetValue, andThen, hc, hg, hip, hs, hr, ho]

/-- Unfolding of `Object::ExecMethod` when every checked call succeeds,
the pointers are non-null, and ExecMethod produces an out-parameter
object. -/
theorem ExecMethod_ok_some (oe : Object.ExecMethodOracle) (mn : String)
    (ip : List (String × CComVariant)) (m : param_map)
    (op : Object.OutParamsOracle)
    (hc : oe.classVal.hr = S_OK) (hg : oe.hrGetObject = S_OK)
    (hip : oe.inParamsClass = true) (hs : oe.spawnedOk = true)
    (hr : oe.relPathVal.hr = S_OK) (ho : oe.outParams = some op) :
    Object.ExecMethod true true mn ip m oe =
      ([Event.eGet "__CLASS" S_OK,
        Event.eGetObject (Object.valueToString oe.classVal.val) S_OK,
        Event.eGetMethod mn oe.hrGetMethod,
        Event.eSpawnInstance oe.hrSpawn] ++ Object.putLoop oe ip 0 ++
        [Event.eGet "__RELPATH" S_OK,
         Event.eExecMethodCall (Object.valueToString oe.relPathVal.val) mn 0
           oe.hrExec,
         Event.eGet "ReturnValue" op.hrGetReturnValue,
         Event.eBeginEnum WBEM_FLAG_NONSYSTEM_ONLY op.hrBeginEnum] ++
        (Object.outParamsLoop op.nexts m).1 ++ [Event.eEndEnum op.hrEndEnum],
       .ok (op.returnValue, (Object.outParamsLoop op.nexts m).2)) := by
  rcases hl : Object.outParamsLoop op.nexts m with ⟨ltr, mf⟩
  simp [Object.ExecMethod, Object.GetValue, andThen, hc, hg, hip, hs, hr, ho, hl]

/-- Claim C2: `Object::ExecMethod` writes each (name, value) pair of
iparams, in list order and with the variant type of the value itself, into the
instance spawned from the in-parameter class obtained via GetMethod, then
invokes IWbemServices::ExecMethod synchronously (flags 0) on the
__RELPATH with the method name, and returns the variant stored under
"ReturnValue" in the out-parameter object — or the empty variant when no
out-parameter object is produced. -/
theorem C2_execMethod_marshalling (oe : Object.ExecMethodOracle) (mn : String)
    (ip : List (String × CComVariant)) (m : param_map)
    (hc : oe.classVal.hr = S_OK) (hg : oe.hrGetObject = S_OK)
    (hip : oe.inParamsClass = true) (hs : oe.spawnedOk = true)
    (hr : oe.relPathVal.hr = S_OK) :
    putsOf (Object.ExecMethod true true mn ip m oe).1 =
      ip.map (fun p => (p.1, p.2.vt)) ∧
    Event.eExecMethodCall (Object.valueToString oe.relPathVal.val) mn 0
        oe.hrExec ∈ (Object.ExecMethod true true mn ip m oe).1 ∧
    (oe.outParams = none →
      Object.ExecMethod true true mn ip m oe =
        ([Event.eGet "__CLASS" S_OK,
          Event.eGetObject (Object.valueToString oe.classVal.val) S_OK,
          Event.eGetMethod mn oe.hrGetMethod,
          Event.eSpawnInstance oe.hrSpawn] ++ Object.putLoop oe ip 0 ++
          [Event.eGet "__RELPATH" S_OK,
           Event.eExecMethodCall (Object.valueToString oe.relPathVal.val) mn 0
             oe.hrExec],
         .ok (emptyVariant, m))) ∧
    (∀ op, oe.outParams = some op →
      ∃ mf, (Object.ExecMethod true true mn ip m oe).2 =
        .ok (op.returnValue, mf)) := by
  refine ⟨?_, ?_, fun ho => ExecMethod_ok_none oe mn ip m hc hg hip hs hr ho,
    fun op ho => ⟨(Object.outParamsLoop op.nexts m).2, by
      rw [ExecMethod_ok_some oe mn ip m op hc hg hip hs hr ho]⟩⟩
  · cases ho : oe.outParams with
    | none =>
      rw [ExecMethod_ok_none oe mn ip m hc hg hip hs hr ho]
      have hq := putsOf_putLoop oe ip 0
      simp only [putsOf] at hq ⊢
      simp [List.filterMap_append, hq]
    | some op =>
      rw [ExecMethod_ok_some oe mn ip m op hc hg hip hs hr ho]
      have hq := putsOf_putLoop oe ip 0
      have hq2 : ∀ nx m2, putsOf (Object.outParamsLoop nx m2).1 = [] := by
        intro nx
        induction nx with
        | nil => intro m2; rfl
        | cons a rest ih =>
          intro m2
          rcases a with ⟨hra, na, va⟩
          cases na with
          | none => simp [Object.outParamsLoop, putsOf]
          | some n =>
            rcases hl : Object.outParamsLoop rest
              (if n = "ReturnValue" then m2 else Object.updateMap m2 n va)
              with ⟨tr, mf⟩
            have := ih (if n = "ReturnValue" then m2 else Object.updateMap m2 n va)
            rw [hl] at this
            simp only [putsOf] at this ⊢
            simp [Object.outParamsLoop, hl, List.filterMap_cons, this]
      simp only [putsOf] at hq ⊢
      have h0 := hq2 op.nexts m
      simp only [putsOf] at h0
      simp [List.filterMap_append, hq, h0]
  · cases ho : oe.outParams with
    | none =>
      rw [ExecMethod_ok_none oe mn ip m hc hg hip hs hr ho]
      simp
    | some op =>
      rw [ExecMethod_ok_some oe mn ip m op hc hg hip hs hr ho]
      simp

/-- Concrete ExecMethod oracle mirroring the chkdsk call in main.cpp,
with no out-parameter object. -/
def c2Oracle : Object.ExecMethodOracle :=
  { classVal := ⟨S_OK, { vt := VT_BSTR, bstrVal := "Win32_LogicalDisk" }⟩
    hrGetObject := S_OK
    hrGetMethod := S_OK
    inParamsClass := true
    hrSpawn := S_OK
    spawnedOk := true
    putHr := fun _ => S_OK
    relPathVal := ⟨S_OK, { vt := VT_BSTR, bstrVal := "Win32_LogicalDisk.DeviceID=G:" }⟩
    hrExec := S_OK
    outParams := none }

/-- Witness for C2 at the chkdsk call of main.cpp: both boolean
parameters are Put with VT_BOOL in order, and with no out-parameter
object the empty variant is returned and oparams is untouched. -/
theorem C2_execMethod_marshalling_witness :
    putsOf (Object.ExecMethod true true "chkdsk"
        [("FixErrors", { vt := VT_BOOL, u16 := 0 }),
         ("OKToRunAtBootUp", { vt := VT_BOOL, u16 := 0 })]
        (fun _ => none) c2Oracle).1 =
      [("FixErrors", VT_BOOL), ("OKToRunAtBootUp", VT_BOOL)] ∧
    (Object.ExecMethod true true "chkdsk"
        [("FixErrors", { vt := VT_BOOL, u16 := 0 }),
         ("OKToRunAtBootUp", { vt := VT_BOOL, u16 := 0 })]
        (fun _ => none) c2Oracle).2 =
      .ok (emptyVariant, fun _ => none) := by
  have h := C2_execMethod_marshalling c2Oracle "chkdsk"
    [("FixErrors", { vt := VT_BOOL, u16 := 0 }),
     ("OKToRunAtBootUp", { vt := VT_BOOL, u16 := 0 })]
    (fun _ => none) (by rfl) (by rfl) (by rfl) (by rfl) (by rfl)
  refine ⟨by simpa using h.1, ?_⟩
  rw [h.2.2.1 (by rfl)]

/-- Projection to the oparams mapping an ExecMethod outcome carries. -/
def outMapOf : Outcome (CComVariant × param_map) → param_map
  | .ok (_, m) => m
  | _ => fun _ => none

/-- Claim C3: after `Object::ExecMethod` returns with a non-null
out-parameter object, oparams maps every processed (non-system) out
parameter other than "ReturnValue" to its returned value, the key
"ReturnValue" is never inserted, entries under keys that are not out
parameters of this call are unchanged, and the enumeration was requested
with WBEM_FLAG_NONSYSTEM_ONLY. -/
theorem C3_execMethod_oparams (oe : Object.ExecMethodOracle) (mn : String)
    (ip : List (String × CComVariant)) (m : param_map)
    (op : Object.OutParamsOracle)
    (hc : oe.classVal.hr = S_OK) (hg : oe.hrGetObject = S_OK)
    (hip : oe.inParamsClass = true) (hs : oe.spawnedOk = true)
    (hr : oe.relPathVal.hr = S_OK) (ho : oe.outParams = some op)
    (hnd : ((processedEntries op.nexts).map Prod.fst).Nodup) :
    (∀ p ∈ processedEntries op.nexts, p.1 ≠ "ReturnValue" →
      outMapOf (Object.ExecMethod true true mn ip m oe).2 p.1 = some p.2) ∧
    outMapOf (Object.ExecMethod true true mn ip m oe).2 "ReturnValue" =
      m "ReturnValue" ∧
    (∀ k, k ∉ (processedEntries op.nexts).map Prod.fst →
      outMapOf (Object.ExecMethod true true mn ip m oe).2 k = m k) ∧
    Event.eBeginEnum WBEM_FLAG_NONSYSTEM_ONLY op.hrBeginEnum ∈
      (Object.ExecMethod true true mn ip m oe).1 := by
  have he := ExecMethod_ok_some oe mn ip m op hc hg hip hs hr ho
  simp only [he, outMapOf, outParamsLoop_snd]
  exact ⟨fun p hp hrv => applyEntries_mem (processedEntries op.nexts) m hnd p hp hrv,
    applyEntries_rv (processedEntries op.nexts) m,
    fun k hk => applyEntries_frame (processedEntries op.nexts) m k hk,
    by simp⟩

/-- Concrete out-parameter drain for the C3 witness: parameters "A" and
"B", a "ReturnValue" entry that must be skipped, then the terminating
null name. -/
def c3OutOracle : Object.OutParamsOracle :=
  { hrGetReturnValue := S_OK
    returnValue := { vt := VT_INT, intVal := 0 }
    hrBeginEnum := S_OK
    nexts := [(S_OK, some "A", { vt := VT_INT, intVal := 1 }),
              (S_OK, some "ReturnValue", { vt := VT_INT, intVal := 5 }),
              (S_OK, some "B", { vt := VT_BSTR, bstrVal := "x" }),
              (S_OK, none, emptyVariant)]
    hrEndEnum := S_OK }

/-- Concrete ExecMethod oracle for the C3 witness. -/
def c3Oracle : Object.ExecMethodOracle :=
  { c2Oracle with outParams := some c3OutOracle }

/-- The oparams mapping passed in for the C3 witness: one pre-existing
entry under "Z", which is not an out parameter of the call. -/
def c3Initial : param_map :=
  fun k => if k = "Z" then some { vt := VT_INT, intVal := 9 } else none

/-- Witness for C3 at a concrete drain: "A" and "B" are mapped to their
values, "ReturnValue" is not inserted, and the unrelated entry under "Z"
survives. -/
theorem C3_execMethod_oparams_witness :
    outMapOf (Object.ExecMethod true true "chkdsk" [] c3Initial c3Oracle).2 "A" =
      some { vt := VT_INT, intVal := 1 } ∧
    outMapOf (Object.ExecMethod true true "chkdsk" [] c3Initial c3Oracle).2 "B" =
      some { vt := VT_BSTR, bstrVal := "x" } ∧
    outMapOf (Object.ExecMethod true true "chkdsk" [] c3Initial c3Oracle).2
      "ReturnValue" = none ∧
    outMapOf (Object.ExecMethod true true "chkdsk" [] c3Initial c3Oracle).2 "Z" =
      some { vt := VT_INT, intVal := 9 } := by
  have h := C3_execMethod_oparams c3Oracle "chkdsk" [] c3Initial c3OutOracle
    (by rfl) (by rfl) (by rfl) (by rfl) (by rfl) (by rfl) (by decide)
  refine ⟨?_, ?_, ?_, ?_⟩
  · exact h.1 ("A", { vt := VT_INT, intVal := 1 }) (by decide) (by decide)
  · exact h.1 ("B", { vt := VT_BSTR, bstrVal := "x" }) (by decide) (by decide)
  · rw [h.2.1]; rfl
  · rw [h.2.2.1 "Z" (by decide)]; rfl

/-- Claim C10: `Object::ExecMethod` dereferences the in-parameter class
pointer written by GetMethod without checking the HRESULT of GetMethod or the
pointer: a null pointer is undefined behaviour whatever the HRESULT; when
the pointer is non-null execution always reaches SpawnInstance, again
whatever the HRESULT; and the outcome never depends on that
HRESULT. -/
theorem C10_getMethod_unchecked (oe : Object.ExecMethodOracle) (mn : String)
    (ip : List (String × CComVariant)) (m : param_map)
    (hc : oe.classVal.hr = S_OK) (hg : oe.hrGetObject = S_OK) :
    (∀ h : HRESULT, oe.inParamsClass = false →
      Object.ExecMethod true true mn ip m { oe with hrGetMethod := h } =
        ([Event.eGet "__CLASS" S_OK,
          Event.eGetObject (Object.valueToString oe.classVal.val) S_OK,
          Event.eGetMethod mn h], .crash)) ∧
    (∀ h : HRESULT, oe.inParamsClass = true →
      Event.eSpawnInstance oe.hrSpawn ∈
        (Object.ExecMethod true true mn ip m { oe with hrGetMethod := h }).1) ∧
    (∀ h1 h2 : HRESULT,
      (Object.ExecMethod true true mn ip m { oe with hrGetMethod := h1 }).2 =
      (Object.ExecMethod true true mn ip m { oe with hrGetMethod := h2 }).2) := by
  refine ⟨fun h hip => ?_, fun h hip => ?_, fun h1 h2 => ?_⟩
  · simp [Object.ExecMethod, Object.GetValue, andThen, hc, hg, hip]
  · by_cases hsp : (oe.spawnedOk = false ∧ ip ≠ [])
    · simp [Object.ExecMethod, Object.GetValue, andThen, hc, hg, hip, hsp]
    · by_cases hrel : oe.relPathVal.hr = S_OK
      · cases hop : oe.outParams with
        | none =>
          simp [Object.ExecMethod, Object.GetValue, andThen, hc, hg, hip, hsp,
            hrel, hop]
        | some op =>
          rcases hl : Object.outParamsLoop op.nexts m with ⟨ltr, mf⟩
          simp [Object.ExecMethod, Object.GetValue, andThen, hc, hg, hip, hsp,
            hrel, hop, hl]
      · simp [Object.ExecMethod, Object.GetValue, andThen, hc, hg, hip, hsp,
          hrel]
  · by_cases hip : oe.inParamsClass
    · by_cases hsp : (oe.spawnedOk = false ∧ ip ≠ [])
      · simp [Object.ExecMethod, Object.GetValue, andThen, hc, hg, hip, hsp]
      · by_cases hrel : oe.relPathVal.hr = S_OK
        · cases hop : oe.outParams with
          | none =>
            simp [Object.ExecMethod, Object.GetValue, andThen, hc, hg, hip,
              hsp, hrel, hop]
          | some op =>
            rcases hl : Object.outParamsLoop op.nexts m with ⟨ltr, mf⟩
            simp [Object.ExecMethod, Object.GetValue, andThen, hc, hg, hip,
              hsp, hrel, hop, hl]
        · simp [Object.ExecMethod, Object.GetValue, andThen, hc, hg, hip, hsp,
            hrel]
    · have hip2 : oe.inParamsClass = false := by simpa using hip
      simp [Object.ExecMethod, Object.GetValue, andThen, hc, hg, hip2]

/-- Concrete oracle for the C10 witness: GetMethod fails and writes a
null in-parameter class pointer. -/
def c10Oracle : Object.ExecMethodOracle :=
  { c2Oracle with inParamsClass := false }

/-- Witness for C10: with a failing GetMethod that wrote a null pointer,
ExecMethod runs straight into the null dereference. -/
theorem C10_getMethod_unchecked_witness :
    Object.ExecMethod true true "chkdsk" [] (fun _ => none)
      { c10Oracle with hrGetMethod := WBEM_E_FAILED } =
      ([Event.eGet "__CLASS" S_OK,
        Event.eGetObject "Win32_LogicalDisk" S_OK,
        Event.eGetMethod "chkdsk" WBEM_E_FAILED], .crash) := by
  have h := C10_getMethod_unchecked c10Oracle "chkdsk" [] (fun _ => none)
    (by rfl) (by rfl)
  simpa [c10Oracle, c2Oracle, Object.valueToString] using h.1 WBEM_E_FAILED (by rfl)

/-- The __CLASS values of the objects the GetClassNames loop enumerates:
one per Next response up to the first `uReturn = 0`. -/
def enumeratedVals : List Services.ClassObjResp → List String
  | [] => []
  | r :: rest =>
    if r.uReturn = 0 then [] else r.classVal.bstrVal :: enumeratedVals rest

theorem classNamesLoop_snd :
    ∀ (objs : List Services.ClassObjResp) (acc : Finset String),
      (∀ r ∈ objs, 0 ≤ r.hrGet) →
      (Services.classNamesLoop objs acc).2 = acc ∪ (enumeratedVals objs).toFinset
  | [], acc, _ => by simp [Services.classNamesLoop, enumeratedVals]
  | r :: rest, acc, h => by
    by_cases hu : r.uReturn = 0
    · simp [Services.classNamesLoop, enumeratedVals, hu]
    · have hg := h r (List.mem_cons_self r rest)
      have ih := classNamesLoop_snd rest (insert r.classVal.bstrVal acc)
        (fun x hx => h x (List.mem_cons_of_mem r hx))
      rcases hl : Services.classNamesLoop rest (insert r.classVal.bstrVal acc)
        with ⟨tr, s⟩
      rw [hl] at ih
      simp [Services.classNamesLoop, enumeratedVals, hu, hg, hl, ih,
        Finset.insert_union, Finset.union_insert]

/-- Claim C6: `Services::GetClassNames` executes exactly the WQL query
"SELECT * FROM meta_class" when the filter is empty and exactly
"SELECT * FROM meta_class where __CLASS LIKE <q><filter><q>" (with <q> a
single quote) when it is not, and returns the set — duplicates collapsed
— of the __CLASS property values of the objects the query enumerates. -/
theorem C6_getClassNames_query_and_result (filter : String)
    (o : Services.GetClassNamesOracle)
    (hq : o.hrExecQuery = S_OK) (hg : ∀ r ∈ o.objs, 0 ≤ r.hrGet) :
    (filter = "" →
      Services.classNamesQuery filter = "SELECT * FROM meta_class") ∧
    (filter ≠ "" →
      Services.classNamesQuery filter =
        "SELECT * FROM meta_class" ++ " where __CLASS LIKE " ++
          Services.squote ++ filter ++ Services.squote) ∧
    (Services.GetClassNames true filter o).1.head? =
      some (Event.eExecQuery "WQL" (Services.classNamesQuery filter) S_OK) ∧
    (Services.GetClassNames true filter o).2 =
      .ok (enumeratedVals o.objs).toFinset := by
  refine ⟨fun hf => by simp [Services.classNamesQuery, hf],
    fun hf => by simp [Services.classNamesQuery, hf], ?_, ?_⟩
  · rcases hl : Services.classNamesLoop o.objs ∅ with ⟨tr, s⟩
    simp [Services.GetClassNames, hq, hl]
  · have hs := classNamesLoop_snd o.objs ∅ hg
    rcases hl : Services.classNamesLoop o.objs ∅ with ⟨tr, s⟩
    rw [hl] at hs
    simp [Services.GetClassNames, hq, hl, hs]

/-- Witness for C6: a filtered query string, and an enumeration in which
"Win32_Process" appears twice yet occurs once in the returned set. -/
theorem C6_getClassNames_query_and_result_witness :
    Services.classNamesQuery "Win32_%" =
      "SELECT * FROM meta_class where __CLASS LIKE \x27Win32_%\x27" ∧
    (Services.GetClassNames true "Win32_%"
      ⟨S_OK, [⟨S_OK, 1, S_OK, { vt := VT_BSTR, bstrVal := "Win32_Process" }⟩,
              ⟨S_OK, 1, S_OK, { vt := VT_BSTR, bstrVal := "Win32_Process" }⟩,
              ⟨S_OK, 1, S_OK, { vt := VT_BSTR, bstrVal := "Win32_Service" }⟩,
              ⟨S_OK, 0, S_OK, emptyVariant⟩]⟩).2 =
      .ok {"Win32_Process", "Win32_Service"} := by
  have h := C6_getClassNames_query_and_result "Win32_%"
    ⟨S_OK, [⟨S_OK, 1, S_OK, { vt := VT_BSTR, bstrVal := "Win32_Process" }⟩,
            ⟨S_OK, 1, S_OK, { vt := VT_BSTR, bstrVal := "Win32_Process" }⟩,
            ⟨S_OK, 1, S_OK, { vt := VT_BSTR, bstrVal := "Win32_Service" }⟩,
            ⟨S_OK, 0, S_OK, emptyVariant⟩]⟩ (by rfl) (by decide)
  exact ⟨(h.2.1 (by decide)).trans (by decide), (h.2.2.2).trans (by decide)⟩

/-- The data members of an `Object`: the identities of the COM interfaces
held by m_pObj and m_pServices (0 models a null pointer). -/
structure ObjectState where
  m_pObj : Nat
  m_pServices : Nat
deriving DecidableEq, Repr

/-- The data member of a `Services`: the identity of the held
m_pService (0 models a null pointer). -/
structure ServicesState where
  m_pService : Nat
deriving DecidableEq, Repr

namespace Object

/-- Embedding of `Object::GetProperties` with the member set threaded through: the
body contains no assignment to m_pObj or m_pServices, so the post-call
member set is the pre-call one. -/
def GetPropertiesS (st : ObjectState) (po : GetPropsOracle) :
    ObjectState × (List Event × Outcome (List String)) :=
  (st, GetProperties (st.m_pObj != 0) po)

/-- Embedding of `Object::GetValue` with the member set threaded through (no member
assignment in the body). -/
def GetValueS (st : ObjectState) (property : String) (o : GetOracle) :
    ObjectState × (List Event × Outcome String) :=
  (st, GetValue (st.m_pObj != 0) property o)

/-- Embedding of `Object::GetIValue` with the member set threaded through (no member
assignment in the body). -/
def GetIValueS (st : ObjectState) (property : String) (o : GetOracle) :
    ObjectState × (List Event × Outcome Int) :=
  (st, GetIValue (st.m_pObj != 0) property o)

/-- Embedding of `Object::GetMethods` with the member set threaded through (no member
assignment in the body). -/
def GetMethodsS (st : ObjectState) (o : GetMethodsOracle) :
    ObjectState × (List Event × Outcome (List MethodDef)) :=
  (st, GetMethods (st.m_pObj != 0) (st.m_pServices != 0) o)

/-- Embedding of `Object::ExecMethod` with the member set threaded through (no member
assignment in the body). -/
def ExecMethodS (st : ObjectState) (methodName : String)
    (ip : List (String × CComVariant)) (m : param_map) (o : ExecMethodOracle) :
    ObjectState × (List Event × Outcome (CComVariant × param_map)) :=
  (st, ExecMethod (st.m_pObj != 0) (st.m_pServices != 0) methodName ip m o)

end Object

namespace Services

/-- Embedding of `Services::GetInstances` with the member threaded through (no member
assignment in the body). -/
def GetInstancesS (ss : ServicesState) (className : String)
    (o : GetInstancesOracle) : ServicesState × (List Event × Outcome Nat) :=
  (ss, GetInstances (ss.m_pService != 0) className o)

/-- Embedding of `Services::GetObject` with the member threaded through (no member
assignment in the body). -/
def GetObjectByNameS (ss : ServicesState) (objectName : String)
    (hr : HRESULT) : ServicesState × (List Event × Outcome Unit) :=
  (ss, GetObjectByName (ss.m_pService != 0) objectName hr)

/-- Embedding of `Services::GetClassNames` with the member threaded through (no member
assignment in the body). -/
def GetClassNamesS (ss : ServicesState) (filter : String)
    (o : GetClassNamesOracle) : ServicesState × (List Event × Outcome (Finset String)) :=
  (ss, GetClassNames (ss.m_pService != 0) filter o)

end Services

/-- Claim C8: no operation of Object or Services mutates the stored COM
pointers — each stateful embedding returns the member set unchanged — and
none caches: every call issues its provider query (its trace starts with
the corresponding COM call), so repeated calls repeat the query. -/
theorem C8_no_mutation_no_caching (st : ObjectState) (ss : ServicesState)
    (property cn onm mn filter : String) (og og2 : Object.GetOracle)
    (po : Object.GetPropsOracle) (om : Object.GetMethodsOracle)
    (oe : Object.ExecMethodOracle) (ip : List (String × CComVariant))
    (m : param_map) (oi : Services.GetInstancesOracle) (hr0 : HRESULT)
    (oc : Services.GetClassNamesOracle)
    (hobj : st.m_pObj ≠ 0) (hsvc : st.m_pServices ≠ 0)
    (hsrv : ss.m_pService ≠ 0) :
    (Object.GetPropertiesS st po).1 = st ∧
    (Object.GetValueS st property og).1 = st ∧
    (Object.GetIValueS st property og2).1 = st ∧
    (Object.GetMethodsS st om).1 = st ∧
    (Object.ExecMethodS st mn ip m oe).1 = st ∧
    (Services.GetInstancesS ss cn oi).1 = ss ∧
    (Services.GetObjectByNameS ss onm hr0).1 = ss ∧
    (Services.GetClassNamesS ss filter oc).1 = ss ∧
    (Object.GetValueS st property og).2.1 = [Event.eGet property og.hr] ∧
    (Object.GetIValueS st property og2).2.1 = [Event.eGet property og2.hr] ∧
    (Object.GetPropertiesS st po).2.1.head? =
      some (Event.eGetNames po.outer.saId enumNamesFlags po.outer.hrGetNames) ∧
    (Object.GetMethodsS st om).2.1.head? =
      some (Event.eGet "__CLASS" om.classVal.hr) ∧
    (Object.ExecMethodS st mn ip m oe).2.1.head? =
      some (Event.eGet "__CLASS" oe.classVal.hr) ∧
    (Services.GetInstancesS ss cn oi).2.1.head? =
      some (Event.eCreateInstanceEnum cn oi.hrCreateEnum) ∧
    (Services.GetObjectByNameS ss onm hr0).2.1 = [Event.eGetObject onm hr0] ∧
    (Services.GetClassNamesS ss filter oc).2.1.head? =
      some (Event.eExecQuery "WQL" (Services.classNamesQuery filter)
        oc.hrExecQuery) := by
  have hobj2 : (st.m_pObj != 0) = true := by simpa using hobj
  have hsvc2 : (st.m_pServices != 0) = true := by simpa using hsvc
  have hsrv2 : (ss.m_pService != 0) = true := by simpa using hsrv
  refine ⟨rfl, rfl, rfl, rfl, rfl, rfl, rfl, rfl, ?_, ?_, ?_, ?_, ?_, ?_, ?_, ?_⟩
  · by_cases h : og.hr = S_OK <;>
      simp [Object.GetValueS, Object.GetValue, hobj2, h]
  · by_cases h : og2.hr = S_OK <;>
      simp [Object.GetIValueS, Object.GetIValue, hobj2, h]
  · by_cases h : po.outer.hrGetNames = S_OK
    · rcases hp : EnumNames po.inner with ⟨tr, r⟩
      simp [Object.GetPropertiesS, Object.GetProperties, hobj2, h, runSAHandle,
        hp]
    · simp [Object.GetPropertiesS, Object.GetProperties, hobj2, h]
  · by_cases h : om.classVal.hr = S_OK <;>
      simp [Object.GetMethodsS, Object.GetMethods, Object.GetValue, andThen,
        hobj2, hsvc2, h]
  · by_cases h : oe.classVal.hr = S_OK <;>
      simp [Object.ExecMethodS, Object.ExecMethod, Object.GetValue, andThen,
        hobj2, hsvc2, h]
  · by_cases h : oi.hrCreateEnum = S_OK
    · rcases hp : Services.getInstancesLoop oi.nexts with ⟨tr, r⟩
      simp [Services.GetInstancesS, Services.GetInstances, hsrv2, h, hp]
    · simp [Services.GetInstancesS, Services.GetInstances, hsrv2, h]
  · by_cases h : hr0 = S_OK <;>
      simp [Services.GetObjectByNameS, Services.GetObjectByName, hsrv2, h]
  · by_cases h : oc.hrExecQuery = S_OK
    · rcases hp : Services.classNamesLoop oc.objs ∅ with ⟨tr, s⟩
      simp [Services.GetClassNamesS, Services.GetClassNames, hsrv2, h, hp]
    · simp [Services.GetClassNamesS, Services.GetClassNames, hsrv2, h]

/-- Witness for C8 at concrete states and oracles. -/
theorem C8_no_mutation_no_caching_witness :
    (Object.GetValueS ⟨1, 1⟩ "DeviceID" ⟨S_OK, emptyVariant⟩).1 = ⟨1, 1⟩ ∧
    (Object.GetValueS ⟨1, 1⟩ "DeviceID" ⟨S_OK, emptyVariant⟩).2.1 =
      [Event.eGet "DeviceID" S_OK] ∧
    (Services.GetClassNamesS ⟨1⟩ "" ⟨S_OK, []⟩).1 = ⟨1⟩ ∧
    (Services.GetClassNamesS ⟨1⟩ "" ⟨S_OK, []⟩).2.1.head? =
      some (Event.eExecQuery "WQL" (Services.classNamesQuery "") S_OK) := by
  have h := C8_no_mutation_no_caching ⟨1, 1⟩ ⟨1⟩ "DeviceID" "Win32_LogicalDisk"
    "Win32_BIOS" "chkdsk" "" ⟨S_OK, emptyVariant⟩ ⟨S_OK, emptyVariant⟩
    ⟨⟨S_OK, 0, S_OK, 0, S_OK, 0, (fun _ => (S_OK, "")), S_OK⟩,
     ⟨S_OK, 1, S_OK, 0, S_OK, 0, (fun _ => (S_OK, "")), S_OK⟩⟩
    ⟨⟨S_OK, emptyVariant⟩, S_OK, S_OK, [], S_OK⟩
    ⟨⟨S_OK, emptyVariant⟩, S_OK, S_OK, true, S_OK, true, (fun _ => S_OK),
      ⟨S_OK, emptyVariant⟩, S_OK, none⟩ [] (fun _ => none)
    ⟨S_OK, []⟩ S_OK ⟨S_OK, []⟩ (by decide) (by decide) (by decide)
  exact ⟨h.2.1, h.2.2.2.2.2.2.2.2.1, h.2.2.2.2.2.2.2.1,
    h.2.2.2.2.2.2.2.2.2.2.2.2.2.2.2⟩

end Wmipp
